import Mathlib

/-!
Shallow embedding of the resource-lifecycle and scheduling core of the
nvme-strom kernel module (src/kmod/nvme_strom.c), together with proofs of
the specified properties.  Machine integers are modelled as `Nat`/`Int`
(every quantity involved stays far below any overflow boundary on the
inputs considered); fallible kernel calls are modelled as `Except`/error
codes; external collaborators (the filesystem block resolver, the page
cache, the user-memory copy primitives and the NVMe submission queue) are
modelled as oracle functions collected in an environment record.
-/

namespace NvmeStrom

/-! ## Constants of the C source -/

/-- PAGE_CACHE_SHIFT on the target kernel (x86-64, 4 KiB pages). -/
def PAGE_CACHE_SHIFT : Nat := 12

/-- PAGE_CACHE_SIZE, i.e. 4096 bytes. -/
def PAGE_CACHE_SIZE : Nat := 4096

/-- STROM_DMA_SSD2GPU_MAXLEN: the maximum length of one DMA request. -/
def STROM_DMA_SSD2GPU_MAXLEN : Nat := 128 * 1024

/-- EINVAL as the negative errno the driver returns. -/
def EINVAL : Int := 22

/-- ERANGE as the negative errno the driver returns. -/
def ERANGE : Int := 34

/-! ## DMA task records and `strom_put_dma_task` (status bookkeeping)

A `strom_dma_task` carries a reference count, a frozen flag and the sticky
`dma_status` slot.  `strom_put_dma_task(dtask, dma_status)` first stores a
non-zero incoming status into `dtask->dma_status` when (and only when) the
stored status is still zero, then decrements the reference count. -/

/-- The per-task fields of `struct strom_dma_task` that the status protocol
touches. -/
structure DmaTaskRec where
  refcnt : Nat
  frozen : Bool
  dma_status : Int
deriving DecidableEq, Repr

/-- The status update performed by `strom_put_dma_task` under the shard
lock: `if (dma_status) { if (!dtask->dma_status) dtask->dma_status = dma_status; }`. -/
def updateDmaStatus (cur incoming : Int) : Int :=
  if incoming ≠ 0 ∧ cur = 0 then incoming else cur

/-- One call of `strom_put_dma_task` as observed on the task record:
update the sticky status slot, then drop one reference. -/
def strom_put_dma_task (t : DmaTaskRec) (dma_status : Int) : DmaTaskRec :=
  { t with dma_status := updateDmaStatus t.dma_status dma_status,
           refcnt := t.refcnt - 1 }

/-! ## The task registry shard and `strom_memcpy_ssd2gpu_wait`

Each hash shard keeps a list of live task ids (`strom_dma_task_slots`) and
a list of failure records (`failed_dma_task_slots`, pairs of task id and
sticky status).  One pass of the wait loop checks the failure list first
(consuming the record when found), then the live list (blocking when the
id is still live), and otherwise reports success. -/

/-- One hash shard of the task registry: ids of live tasks and the failure
records awaiting pickup. -/
structure TaskShard where
  live : List Nat
  failed : List (Nat × Int)
deriving DecidableEq, Repr

/-- Outcome of one pass of the `strom_memcpy_ssd2gpu_wait` loop body. -/
inductive WaitOutcome where
  | gotError (status : Int)
  | running
  | success
deriving DecidableEq, Repr

/-- One pass of the loop body of `strom_memcpy_ssd2gpu_wait`: scan the
failure list for the id (on a hit, read the status, unlink and free the
record, return -EIO with the status); otherwise scan the live list (on a
hit the caller blocks and retries); otherwise return success. -/
def waitCheck (sh : TaskShard) (id : Nat) : WaitOutcome × TaskShard :=
  match sh.failed.find? (fun e => e.1 == id) with
  | some e => (.gotError e.2, { sh with failed := sh.failed.eraseP (fun e2 => e2.1 == id) })
  | none =>
    if id ∈ sh.live then (.running, sh) else (.success, sh)

/-! ## The mapped-GPU-memory lifecycle

`mapped_gpu_memory` events: a successful `strom_get_mapped_gpu_memory`
increments `refcnt`; `strom_put_mapped_gpu_memory` asserts `refcnt > 0`
and decrements it; the entry is unlinked from its hash slot either by
`ioctl_unmap_gpu_memory` or at the start of
`callback_release_mapped_gpu_memory`; the callback then sleeps until
`refcnt == 0` (asserting exactly that on wakeup) before it frees the page
table and the record.  The drain sleep is embedded as the guard
`refcnt = 0` on the `free` event. -/

/-- Lifecycle state of one `mapped_gpu_memory` entry. -/
structure MgState where
  inList : Bool
  refcnt : Int
  freed : Bool
deriving DecidableEq, Repr

/-- Events on one `mapped_gpu_memory` entry. -/
inductive MgEvent where
  | acquire
  | release
  | detach
  | free
deriving DecidableEq, Repr

/-- Guarded transition relation of the mapping lifecycle; `none` means the
event cannot fire in this state (a failed lookup is a no-op and is not an
event). -/
def mgStep (st : MgState) (e : MgEvent) : Option MgState :=
  match e with
  | .acquire =>
    if st.inList then some { st with refcnt := st.refcnt + 1 } else none
  | .release =>
    if st.refcnt > 0 then some { st with refcnt := st.refcnt - 1 } else none
  | .detach =>
    if st.inList then some { st with inList := false } else none
  | .free =>
    if ¬ st.inList ∧ st.refcnt = 0 ∧ ¬ st.freed then some { st with freed := true } else none

/-- Run a sequence of lifecycle events from a state. -/
def mgRun (evs : List MgEvent) (st : MgState) : Option MgState :=
  match evs with
  | [] => some st
  | e :: rest =>
    match mgStep st e with
    | some st2 => mgRun rest st2
    | none => none

/-- The state of a freshly registered mapping (`ioctl_map_gpu_memory`). -/
def mgInit : MgState := { inList := true, refcnt := 0, freed := false }

/-! ## The request scheduler
(`memcpy_ssd2gpu_writeback`, `__memcpy_ssd2gpu_submit_dma`,
`__memcpy_ssd2gpu_writeback`, `submit_ssd2gpu_memcpy`)

External collaborators are oracles: `getBlock` stands for
`strom_get_block` (file-block index to device block number),
`pageState` for `find_lock_page` plus `PageDirty`, `readPage` for
`read_mapping_page` on a page that is not cached, `copyOk` for the
user-space copy primitives, and `submitRes` for
`nvme_submit_async_read_cmd` (indexed by the ordinal of the submission
attempt).  Memory allocation is assumed to succeed. -/

/-- Cache residency of one file page as the writeback loop observes it. -/
inductive PageState where
  | absent
  | clean
  | dirty
deriving DecidableEq, Repr

/-- The oracle environment standing for the external collaborators. -/
structure Env where
  getBlock : Nat → Except Int Nat
  pageState : Nat → PageState
  readPage : Nat → Except Int Unit
  copyOk : Nat → Bool
  submitRes : Nat → Int

/-- The fields of `mapped_gpu_memory` the DMA path reads.  As in the
source, `map_length` already includes `map_offset`
(`mgmem->map_length = map_offset + karg.length`). -/
structure MappedGpuMemory where
  map_offset : Nat
  map_length : Nat
  gpu_page_sz : Nat
  gpu_page_shift : Nat
  entries : Nat
deriving DecidableEq, Repr

/-- The immutable configuration fields of `strom_dma_task`. -/
structure DmaTaskCfg where
  mgmem : MappedGpuMemory
  blocksz : Nat
  blocksz_shift : Nat
  max_nblocks : Nat
deriving DecidableEq, Repr

/-- The pending-merge accumulator of a `strom_dma_task`: current
destination offset, head source block, and run length in blocks. -/
structure PendingRun where
  dest_offset : Nat
  src_block : Nat
  nr_blocks : Nat
deriving DecidableEq, Repr

/-- Scheduler-visible mutable state: the pending run plus the submission
counters of the request (`nr_dma_submit`, `nr_dma_blocks`); `subs` records
every run handed to `submit_ssd2gpu_memcpy`, in order. -/
structure SchedState where
  run : PendingRun
  subs : List PendingRun
  nr_dma_submit : Nat
  nr_dma_blocks : Nat
deriving DecidableEq, Repr

/-- `submit_ssd2gpu_memcpy`: build and submit one physical transfer for
the pending run.  Returns -EINVAL when the run is empty or exceeds
`STROM_DMA_SSD2GPU_MAXLEN`, -ERANGE when the destination interval leaves
`[map_offset, map_offset + map_length)`, -EINVAL when the page-table
entries cannot cover the transfer (the leftover check after the
scatter-gather loop: starting at in-page offset `dest_offset mod
gpu_page_sz`, `entries` device pages hold at most `entries * gpu_page_sz -
offset` bytes), and otherwise the submission oracle's verdict. -/
def submit_ssd2gpu_memcpy (cfg : DmaTaskCfg) (env : Env) (subIdx : Nat)
    (run : PendingRun) : Int :=
  let mg := cfg.mgmem
  let total_nbytes := run.nr_blocks <<< cfg.blocksz_shift
  if total_nbytes = 0 ∨ total_nbytes > STROM_DMA_SSD2GPU_MAXLEN then -EINVAL
  else if run.dest_offset < mg.map_offset ∨
      run.dest_offset + total_nbytes > mg.map_offset + mg.map_length then -ERANGE
  else
    let offset := run.dest_offset &&& (mg.gpu_page_sz - 1)
    if offset + total_nbytes > mg.entries * mg.gpu_page_sz then -EINVAL
    else env.submitRes subIdx

/-- Submit the pending run: bump the two submission counters, then call
`submit_ssd2gpu_memcpy` on the run (recorded in `subs`). -/
def submitPending (cfg : DmaTaskCfg) (env : Env) (s : SchedState) :
    Int × SchedState :=
  let res := submit_ssd2gpu_memcpy cfg env s.subs.length s.run
  (res, { run := s.run,
          subs := s.subs ++ [s.run],
          nr_dma_submit := s.nr_dma_submit + 1,
          nr_dma_blocks := s.nr_dma_blocks + s.run.nr_blocks })

/-- The merge test of `__memcpy_ssd2gpu_submit_dma`: the pending run is
non-empty, the grown run stays within `max_nblocks`, the new block
continues the source run, and the page's destination offset continues the
destination run. -/
def mergeCond (cfg : DmaTaskCfg) (run : PendingRun) (nr_blocks blocknr curr_offset : Nat) :
    Prop :=
  run.nr_blocks > 0 ∧
  run.nr_blocks + nr_blocks ≤ cfg.max_nblocks ∧
  run.src_block + run.nr_blocks = blocknr ∧
  run.dest_offset + run.nr_blocks * cfg.blocksz = curr_offset

instance (cfg : DmaTaskCfg) (run : PendingRun) (nr_blocks blocknr curr_offset : Nat) :
    Decidable (mergeCond cfg run nr_blocks blocknr curr_offset) := by
  unfold mergeCond
  infer_instance

/-- One iteration of the page loop of `__memcpy_ssd2gpu_submit_dma`:
resolve the page's device block, merge it into the pending run when
`mergeCond` holds, and otherwise first submit a non-empty pending run
(aborting on a submission error) and then start a fresh run at this
page. -/
def submitDmaPage (cfg : DmaTaskCfg) (env : Env) (fpos curr_offset : Nat)
    (s : SchedState) : Int × SchedState :=
  match env.getBlock (fpos >>> cfg.blocksz_shift) with
  | .error e => (e, s)
  | .ok blocknr =>
    let nr_blocks := PAGE_CACHE_SIZE >>> cfg.blocksz_shift
    if mergeCond cfg s.run nr_blocks blocknr curr_offset then
      (0, { s with run := { s.run with nr_blocks := s.run.nr_blocks + nr_blocks } })
    else if s.run.nr_blocks > 0 then
      let rs := submitPending cfg env s
      if rs.1 ≠ 0 then (rs.1, rs.2)
      else (0, { rs.2 with run := ⟨curr_offset, blocknr, nr_blocks⟩ })
    else
      (0, { s with run := ⟨curr_offset, blocknr, nr_blocks⟩ })

/-- `__memcpy_ssd2gpu_submit_dma`: iterate `submitDmaPage` over the
chunk's pages, advancing the file position and the destination offset by
one page each step, and stopping at the first error. -/
def memcpy_ssd2gpu_submit_dma (cfg : DmaTaskCfg) (env : Env)
    (nr_pages fpos curr_offset : Nat) (s : SchedState) : Int × SchedState :=
  match nr_pages with
  | 0 => (0, s)
  | n + 1 =>
    let rs := submitDmaPage cfg env fpos curr_offset s
    if rs.1 ≠ 0 then rs
    else memcpy_ssd2gpu_submit_dma cfg env n (fpos + PAGE_CACHE_SIZE)
      (curr_offset + PAGE_CACHE_SIZE) rs.2

/-- One iteration of `__memcpy_ssd2gpu_writeback`: a page not in the cache
is read synchronously (which can fail), then its content is copied to the
user buffer (which can fault with -EFAULT). -/
def writebackPage (env : Env) (idx : Nat) : Int :=
  let readRes : Int :=
    match env.pageState idx with
    | .absent =>
      match env.readPage idx with
      | .ok _ => 0
      | .error e => e
    | _ => 0
  if readRes ≠ 0 then readRes
  else if env.copyOk idx then 0 else -14

/-- `__memcpy_ssd2gpu_writeback` over the chunk's pages, stopping at the
first error. -/
def memcpy_ssd2gpu_writeback_pages (env : Env) (nr_pages fp_index : Nat) : Int :=
  match nr_pages with
  | 0 => 0
  | n + 1 =>
    let r := writebackPage env fp_index
    if r ≠ 0 then r
    else memcpy_ssd2gpu_writeback_pages env n (fp_index + 1)

/-- The request fields of `StromCmd__MemCpySsdToGpuWriteBack` that the
core loop reads. -/
structure StromCmd__MemCpySsdToGpuWriteBack where
  nr_chunks : Nat
  chunk_sz : Nat
  relseg_sz : Nat
  offset : Nat
deriving DecidableEq, Repr

/-- The state threaded through the chunk loop of
`memcpy_ssd2gpu_writeback`: the two output counters, the running
destination offset, the scheduler state, and the output id array
`chunk_ids_out`.  `dirIds` records the ids sent down the direct path in
processing order, and `wbCopies` records, per write-back chunk in
processing order, its id and the byte offset into the user write-back
buffer its data is copied to. -/
structure WbState where
  nr_ram2gpu : Nat
  nr_ssd2gpu : Nat
  dest_offset : Nat
  sched : SchedState
  ids_out : List Nat
  dirIds : List Nat
  wbCopies : List (Nat × Nat)
deriving DecidableEq, Repr

/-- The file position of a chunk: `chunk_id * chunk_sz`, folded modulo
`relseg_sz` when a relative segment size is configured. -/
def chunkFpos (karg : StromCmd__MemCpySsdToGpuWriteBack) (chunk_id : Nat) : Nat :=
  if karg.relseg_sz = 0 then chunk_id * karg.chunk_sz
  else (chunk_id % karg.relseg_sz) * karg.chunk_sz

/-- Contribution of one observed page to the cache score. -/
def pageScore (threshold : Nat) (p : PageState) : Nat :=
  match p with
  | .absent => 0
  | .clean => 1
  | .dirty => threshold + 1

/-- The cache-scoring loop: probe every page of the chunk and accumulate
1 per resident clean page and `threshold + 1` per resident dirty page. -/
def chunkScore (env : Env) (nr_pages threshold fp_index : Nat) : Nat :=
  match nr_pages with
  | 0 => 0
  | n + 1 => pageScore threshold (env.pageState fp_index) + chunkScore env n threshold (fp_index + 1)

/-- The body of the chunk loop of `memcpy_ssd2gpu_writeback`: resolve the
chunk's file position (rejecting a position past end-of-file with
-ERANGE), score its cache residency, and route it to the write-back path
when the score exceeds the threshold and to the direct DMA path
otherwise, recording the chunk id in the output array from the back
respectively the front. -/
def memcpy_chunk (cfg : DmaTaskCfg) (env : Env)
    (karg : StromCmd__MemCpySsdToGpuWriteBack) (i_size chunk_id : Nat)
    (st : WbState) : Int × WbState :=
  let nr_pages := karg.chunk_sz >>> PAGE_CACHE_SHIFT
  let threshold := nr_pages / 2
  let fpos := chunkFpos karg chunk_id
  if fpos > i_size then (-ERANGE, st)
  else
    let fp_index := fpos >>> PAGE_CACHE_SHIFT
    let score := chunkScore env nr_pages threshold fp_index
    if score > threshold then
      let nr_ram2gpu := st.nr_ram2gpu + 1
      let retval := memcpy_ssd2gpu_writeback_pages env nr_pages fp_index
      (retval, { st with
        nr_ram2gpu := nr_ram2gpu,
        ids_out := st.ids_out.set (karg.nr_chunks - nr_ram2gpu) chunk_id,
        wbCopies := st.wbCopies ++
          [(chunk_id, karg.chunk_sz * (karg.nr_chunks - nr_ram2gpu))] })
    else
      let rs := memcpy_ssd2gpu_submit_dma cfg env nr_pages fpos st.dest_offset st.sched
      (rs.1, { st with
        sched := rs.2,
        ids_out := st.ids_out.set st.nr_ssd2gpu chunk_id,
        dirIds := st.dirIds ++ [chunk_id],
        dest_offset := st.dest_offset + karg.chunk_sz,
        nr_ssd2gpu := st.nr_ssd2gpu + 1 })

/-- The chunk loop of `memcpy_ssd2gpu_writeback`: process the requested
chunk ids in order, aborting at the first chunk that reports an error. -/
def memcpy_chunks (cfg : DmaTaskCfg) (env : Env)
    (karg : StromCmd__MemCpySsdToGpuWriteBack) (i_size : Nat)
    (ids : List Nat) (st : WbState) : Int × WbState :=
  match ids with
  | [] => (0, st)
  | c :: rest =>
    let rs := memcpy_chunk cfg env karg i_size c st
    if rs.1 ≠ 0 then rs
    else memcpy_chunks cfg env karg i_size rest rs.2

/-- The initial chunk-loop state, as set up by
`ioctl_memcpy_ssd2gpu_writeback` and `strom_create_dma_task`: zeroed
counters, a fresh pending run, the destination base at `map_offset +
karg.offset`, and the uninitialised output id array `ids_init`. -/
def wbInit (cfg : DmaTaskCfg) (karg : StromCmd__MemCpySsdToGpuWriteBack)
    (ids_init : List Nat) : WbState :=
  { nr_ram2gpu := 0, nr_ssd2gpu := 0,
    dest_offset := cfg.mgmem.map_offset + karg.offset,
    sched := { run := ⟨0, 0, 0⟩, subs := [], nr_dma_submit := 0, nr_dma_blocks := 0 },
    ids_out := ids_init, dirIds := [], wbCopies := [] }

/-- `memcpy_ssd2gpu_writeback`: validate the chunk size (page aligned,
between one page and `STROM_DMA_SSD2GPU_MAXLEN`) and the destination
range, run the chunk loop, and finally submit any non-empty pending run
-- discarding that last submission's result, as the source does. -/
def memcpy_ssd2gpu_writeback (cfg : DmaTaskCfg) (env : Env)
    (karg : StromCmd__MemCpySsdToGpuWriteBack) (i_size : Nat)
    (chunk_ids_in : List Nat) (ids_init : List Nat) : Int × WbState :=
  let st0 := wbInit cfg karg ids_init
  if karg.chunk_sz &&& (PAGE_CACHE_SIZE - 1) ≠ 0 ∨
      karg.chunk_sz < PAGE_CACHE_SIZE ∨
      karg.chunk_sz > STROM_DMA_SSD2GPU_MAXLEN then (-EINVAL, st0)
  else if cfg.mgmem.map_offset + karg.offset + karg.nr_chunks * karg.chunk_sz >
      cfg.mgmem.map_length then (-ERANGE, st0)
  else
    let rs := memcpy_chunks cfg env karg i_size chunk_ids_in st0
    if rs.1 ≠ 0 then rs
    else if rs.2.sched.run.nr_blocks > 0 then
      (0, { rs.2 with sched := (submitPending cfg env rs.2.sched).2 })
    else (0, rs.2)

/-- Loop invariant of the chunk loop: the counters match the recorded
direct/write-back lists, processed and unprocessed chunk counts balance,
every write-back copy's buffer offset follows the back-to-front formula,
and the output id array is the direct ids (front, processing order), an
untouched middle, and the write-back ids (tail, reverse processing
order). -/
def WbInv (karg : StromCmd__MemCpySsdToGpuWriteBack) (st : WbState)
    (remaining : Nat) : Prop :=
  st.nr_ssd2gpu = st.dirIds.length ∧
  st.nr_ram2gpu = st.wbCopies.length ∧
  st.dirIds.length + remaining + st.wbCopies.length = karg.nr_chunks ∧
  (∀ k (hk : k < st.wbCopies.length),
    (st.wbCopies.get ⟨k, hk⟩).2 = karg.chunk_sz * (karg.nr_chunks - (k + 1))) ∧
  ∃ mid, mid.length = remaining ∧
    st.ids_out = st.dirIds ++ mid ++ (st.wbCopies.map Prod.fst).reverse

/-! ## Concrete scenarios

`scenarioCfg` is the specified 1 MiB mapping registered at 64 KiB device
pages over an ext4-style 4 KiB-block file: `max_nblocks =
STROM_DMA_SSD2GPU_MAXLEN >> 12 = 32`.  `scenarioEnv` is the cache-cold,
storage-contiguous environment (block number = file-block index);
`c6Env` additionally fails every DMA submission with -EIO; `mixEnv`
instead makes the pages of the second 32 KiB chunk dirty cache
residents. -/

def scenarioEnv : Env := {
  getBlock := fun b => .ok b,
  pageState := fun _ => .absent,
  readPage := fun _ => .ok (),
  copyOk := fun _ => true,
  submitRes := fun _ => 0 }

def scenarioMgMem : MappedGpuMemory :=
  { map_offset := 0, map_length := 1048576, gpu_page_sz := 65536,
    gpu_page_shift := 16, entries := 16 }

def scenarioCfg : DmaTaskCfg :=
  { mgmem := scenarioMgMem, blocksz := 4096, blocksz_shift := 12, max_nblocks := 32 }

def scenarioKarg : StromCmd__MemCpySsdToGpuWriteBack :=
  { nr_chunks := 5, chunk_sz := 32768, relseg_sz := 0, offset := 0 }

def c6Env : Env := { scenarioEnv with submitRes := fun _ => -5 }

def mixEnv : Env := { scenarioEnv with
  pageState := fun i => if 8 ≤ i ∧ i < 16 then .dirty else .absent }

/-! ## Helper lemmas -/

theorem updateDmaStatus_of_ne_zero (cur s : Int) (h : cur ≠ 0) :
    updateDmaStatus cur s = cur := by
  unfold updateDmaStatus
  simp [h]

theorem strom_put_dma_task_status_of_ne_zero (t : DmaTaskRec) (s : Int)
    (h : t.dma_status ≠ 0) : (strom_put_dma_task t s).dma_status = t.dma_status := by
  simp [strom_put_dma_task, updateDmaStatus_of_ne_zero _ _ h]

theorem foldl_put_status_of_ne_zero (l : List Int) (t : DmaTaskRec)
    (h : t.dma_status ≠ 0) :
    (l.foldl strom_put_dma_task t).dma_status = t.dma_status := by
  induction l generalizing t with
  | nil => rfl
  | cons s rest ih =>
    have h2 : (strom_put_dma_task t s).dma_status = t.dma_status :=
      strom_put_dma_task_status_of_ne_zero t s h
    simp only [List.foldl_cons]
    rw [ih (strom_put_dma_task t s) (by rw [h2]; exact h), h2]

theorem foldl_put_status_of_zero (l : List Int) (t : DmaTaskRec)
    (h : t.dma_status = 0) :
    (l.foldl strom_put_dma_task t).dma_status = (l.find? (fun s => s != 0)).getD 0 := by
  induction l generalizing t with
  | nil => simpa [List.find?]
  | cons s rest ih =>
    by_cases hs : s = 0
    · subst hs
      have h1 : strom_put_dma_task t 0 = { t with refcnt := t.refcnt - 1 } := by
        simp [strom_put_dma_task, updateDmaStatus]
      simp only [List.foldl_cons, h1]
      rw [ih _ (by simpa using h)]
      simp [List.find?]
    · have h1 : (strom_put_dma_task t s).dma_status = s := by
        simp [strom_put_dma_task, updateDmaStatus, hs, h]
      simp only [List.foldl_cons]
      rw [foldl_put_status_of_ne_zero rest _ (by rw [h1]; exact hs), h1]
      have hb : (s != 0) = true := by simpa using hs
      simp [List.find?, hb]

/-- At most one entry matching `p` and one of them found means the list
with the first match erased has no match left. -/
theorem countP_eraseP_eq_zero {α : Type} (p : α → Bool) (l : List α)
    (h : l.countP p ≤ 1) : (l.eraseP p).countP p = 0 := by
  induction l with
  | nil => simp
  | cons x xs ih =>
    by_cases hx : p x
    · rw [List.eraseP_cons_of_pos hx]
      rw [List.countP_cons_of_pos p xs hx] at h
      omega
    · rw [List.eraseP_cons_of_neg hx]
      rw [List.countP_cons_of_neg p xs hx] at h
      rw [List.countP_cons_of_neg p (xs.eraseP p) hx]
      exact ih h

/-- Invariant of the mapping lifecycle: the reference count is never
negative, and a freed entry has already drained and been unlinked. -/
def MgInv (st : MgState) : Prop :=
  0 ≤ st.refcnt ∧ (st.freed = true → st.refcnt = 0 ∧ st.inList = false)

theorem mgStep_inv (st st2 : MgState) (e : MgEvent) (h : mgStep st e = some st2)
    (hinv : MgInv st) : MgInv st2 := by
  obtain ⟨h1, h2⟩ := hinv
  cases e with
  | acquire =>
    simp only [mgStep] at h
    split at h
    · next hg =>
      injection h with h3
      subst h3
      refine ⟨by simp; omega, fun hf => absurd (h2 hf).2 (by simp [hg])⟩
    · exact absurd h (by simp)
  | release =>
    simp only [mgStep] at h
    split at h
    · next hg =>
      injection h with h3
      subst h3
      refine ⟨by simp; omega, fun hf => absurd (h2 hf).1 (by omega)⟩
    · exact absurd h (by simp)
  | detach =>
    simp only [mgStep] at h
    split at h
    · injection h with h3
      subst h3
      exact ⟨h1, fun hf => ⟨(h2 hf).1, rfl⟩⟩
    · exact absurd h (by simp)
  | free =>
    simp only [mgStep] at h
    split at h
    · next hg =>
      injection h with h3
      subst h3
      exact ⟨h1, fun _ => ⟨hg.2.1, by simpa using hg.1⟩⟩
    · exact absurd h (by simp)

theorem mgRun_inv (evs : List MgEvent) (st st' : MgState)
    (h : mgRun evs st = some st') (hinv : MgInv st) : MgInv st' := by
  induction evs generalizing st with
  | nil =>
    unfold mgRun at h
    injection h with h2
    subst h2
    exact hinv
  | cons e rest ih =>
    unfold mgRun at h
    cases hstep : mgStep st e with
    | none => rw [hstep] at h; exact absurd h (by simp)
    | some st2 => rw [hstep] at h; exact ih st2 h (mgStep_inv st st2 e hstep hinv)

/-! ## Claim theorems C1, C2, C3 -/

/-- C1: for every DMA task, the first non-zero status passed to
`strom_put_dma_task` is stored as the task's `dma_status`, and every later
call with a different non-zero status leaves the stored status unchanged:
starting from a task whose status slot is zero, a sequence of unref calls
leaves the first non-zero status of the sequence in the slot, and one
unref call on a task whose slot is already non-zero never changes it. -/
theorem strom_put_dma_task_first_error_sticky (t : DmaTaskRec)
    (h : t.dma_status = 0) (l : List Int) :
    (l.foldl strom_put_dma_task t).dma_status = (l.find? (fun s => s != 0)).getD 0 ∧
    ∀ (t2 : DmaTaskRec) (s : Int), t2.dma_status ≠ 0 →
      (strom_put_dma_task t2 s).dma_status = t2.dma_status :=
  ⟨foldl_put_status_of_zero l t h,
   fun t2 s h2 => strom_put_dma_task_status_of_ne_zero t2 s h2⟩

theorem strom_put_dma_task_first_error_sticky_witness :
    ((([0, -5, -7] : List Int).foldl strom_put_dma_task ⟨2, false, 0⟩).dma_status = -5) := by
  have h := (strom_put_dma_task_first_error_sticky ⟨2, false, 0⟩ rfl [0, -5, -7]).1
  rw [h]
  decide

/-- C2: a failure record in the shard's failure set is consumed by at most
one wait call: when a `waitCheck` pass consumes the (unique) failure record
of an id, the resulting shard has no failure record for that id any more,
so a later `waitCheck` for the id never reports an error again and leaves
the shard unchanged; it reports `running` (the caller blocks) exactly while
the id is still in the live set, and `success` as soon as the id is in
neither set. -/
theorem wait_consumes_failure_once (sh : TaskShard) (id : Nat) (st : Int)
    (sh' : TaskShard)
    (huniq : sh.failed.countP (fun e => e.1 == id) ≤ 1)
    (hfirst : waitCheck sh id = (.gotError st, sh')) :
    sh'.failed.find? (fun e => e.1 == id) = none ∧
    (∀ s, (waitCheck sh' id).1 ≠ .gotError s) ∧
    (waitCheck sh' id).2 = sh' ∧
    (id ∈ sh'.live → (waitCheck sh' id).1 = .running) ∧
    (id ∉ sh'.live → (waitCheck sh' id).1 = .success) := by
  unfold waitCheck at hfirst
  cases hfind : sh.failed.find? (fun e => e.1 == id) with
  | none =>
    rw [hfind] at hfirst
    by_cases hc : id ∈ sh.live <;> simp [hc] at hfirst
  | some e =>
    rw [hfind] at hfirst
    have hsh : sh' = { sh with failed := sh.failed.eraseP (fun e2 => e2.1 == id) } := by
      have := congrArg Prod.snd hfirst
      simpa using this.symm
    have hnone : sh'.failed.find? (fun e => e.1 == id) = none := by
      rw [hsh]
      apply List.find?_eq_none.mpr
      intro x hx
      have hcount : (sh.failed.eraseP (fun e2 => e2.1 == id)).countP
          (fun e => e.1 == id) = 0 := countP_eraseP_eq_zero _ _ huniq
      have := List.countP_eq_zero.mp hcount x hx
      simpa using this
    refine ⟨hnone, ?_, ?_, ?_, ?_⟩ <;> unfold waitCheck <;> rw [hnone]
    · intro s
      by_cases hc : id ∈ sh'.live <;> simp [hc]
    · by_cases hc : id ∈ sh'.live <;> simp [hc]
    · intro hc; simp [hc]
    · intro hc; simp [hc]

theorem wait_consumes_failure_once_witness :
    (waitCheck ⟨[7], []⟩ 5).1 = WaitOutcome.success := by
  have h := wait_consumes_failure_once ⟨[7], [(5, -5)]⟩ 5 (-5) ⟨[7], []⟩
    (by decide) (by decide)
  exact h.2.2.2.2 (by decide)

/-- C3: for every sequence of acquire/release/detach/free events on one
mapping starting from registration, the reference count never becomes
negative (it is non-negative in every reachable state, final states of
arbitrary prefixes included), a freed state has reference count zero, and
the revocation callback's `free` transition can only ever fire from a
state whose reference count is zero. -/
theorem mapped_gpu_memory_refcnt_safety (evs : List MgEvent) (st' : MgState)
    (h : mgRun evs mgInit = some st') :
    0 ≤ st'.refcnt ∧ (st'.freed = true → st'.refcnt = 0) ∧
    ∀ (st2 st3 : MgState), mgStep st2 .free = some st3 → st2.refcnt = 0 := by
  have hinv := mgRun_inv evs mgInit st' h (by constructor <;> simp [mgInit])
  refine ⟨hinv.1, fun hf => (hinv.2 hf).1, ?_⟩
  intro st2 st3 hstep
  simp only [mgStep] at hstep
  split at hstep
  · next hguard => exact hguard.2.1
  · exact absurd hstep (by simp)

theorem mapped_gpu_memory_refcnt_safety_witness :
    0 ≤ (⟨false, 0, true⟩ : MgState).refcnt := by
  have h := mapped_gpu_memory_refcnt_safety [.acquire, .release, .detach, .free]
    ⟨false, 0, true⟩ (by decide)
  exact h.1

/-! ## Scheduler lemmas and claim theorems C4 to C10 -/

theorem memcpy_chunks_cons (cfg : DmaTaskCfg) (env : Env)
    (karg : StromCmd__MemCpySsdToGpuWriteBack) (i_size c : Nat)
    (rest : List Nat) (st : WbState) :
    memcpy_chunks cfg env karg i_size (c :: rest) st =
      if (memcpy_chunk cfg env karg i_size c st).1 ≠ 0
      then memcpy_chunk cfg env karg i_size c st
      else memcpy_chunks cfg env karg i_size rest
        (memcpy_chunk cfg env karg i_size c st).2 := rfl

/-- C4: in the per-page loop of `__memcpy_ssd2gpu_submit_dma`, a page's
block run is merged into the pending run iff the run is non-empty, the
merged count stays within `max_nblocks`, the source blocks are contiguous
with the new block (`src_block + nr_blocks = blocknr`), and the
destination offset is contiguous (`dest_offset + nr_blocks * blocksz =
curr_offset`); whenever any of these fails with a non-empty pending run,
that run is first submitted as one physical transfer before a fresh run
starts at the new block. -/
theorem submit_dma_merge_rule (cfg : DmaTaskCfg) (env : Env)
    (fpos curr_offset : Nat) (s : SchedState) (blocknr : Nat)
    (hblk : env.getBlock (fpos >>> cfg.blocksz_shift) = .ok blocknr) :
    (mergeCond cfg s.run (PAGE_CACHE_SIZE >>> cfg.blocksz_shift) blocknr curr_offset →
      submitDmaPage cfg env fpos curr_offset s =
        (0, { s with run := { s.run with
          nr_blocks := s.run.nr_blocks + (PAGE_CACHE_SIZE >>> cfg.blocksz_shift) } })) ∧
    (¬ mergeCond cfg s.run (PAGE_CACHE_SIZE >>> cfg.blocksz_shift) blocknr curr_offset →
      s.run.nr_blocks > 0 →
      (submitDmaPage cfg env fpos curr_offset s).2.subs = s.subs ++ [s.run] ∧
      (submit_ssd2gpu_memcpy cfg env s.subs.length s.run = 0 →
        submitDmaPage cfg env fpos curr_offset s =
          (0, { run := ⟨curr_offset, blocknr, PAGE_CACHE_SIZE >>> cfg.blocksz_shift⟩,
                subs := s.subs ++ [s.run],
                nr_dma_submit := s.nr_dma_submit + 1,
                nr_dma_blocks := s.nr_dma_blocks + s.run.nr_blocks }))) ∧
    (¬ mergeCond cfg s.run (PAGE_CACHE_SIZE >>> cfg.blocksz_shift) blocknr curr_offset →
      s.run.nr_blocks = 0 →
      submitDmaPage cfg env fpos curr_offset s =
        (0, { s with run := ⟨curr_offset, blocknr, PAGE_CACHE_SIZE >>> cfg.blocksz_shift⟩ })) := by
  refine ⟨?_, ?_, ?_⟩
  · intro hm
    simp only [submitDmaPage, hblk, if_pos hm]
  · intro hm hpos
    simp only [submitDmaPage, hblk, if_neg hm, if_pos hpos, submitPending]
    constructor
    · split <;> rfl
    · intro hsub
      simp [hsub]
  · intro hm hz
    simp only [submitDmaPage, hblk, if_neg hm, hz]
    simp

theorem submit_dma_merge_rule_witness :
    submitDmaPage scenarioCfg scenarioEnv 4096 4096 ⟨⟨0, 0, 1⟩, [], 0, 0⟩ =
      (0, ⟨⟨0, 0, 2⟩, [], 0, 0⟩) := by
  have h := (submit_dma_merge_rule scenarioCfg scenarioEnv 4096 4096
    ⟨⟨0, 0, 1⟩, [], 0, 0⟩ 1 rfl).1 (by decide)
  exact h

theorem chunkScore_eq_sum (env : Env) (n t fp : Nat) :
    chunkScore env n t fp =
      ((List.range n).map (fun j => pageScore t (env.pageState (fp + j)))).sum := by
  induction n generalizing fp with
  | zero => rfl
  | succ m ih =>
    have hfun : ((fun j => pageScore t (env.pageState (fp + j))) ∘ Nat.succ)
        = fun j => pageScore t (env.pageState (fp + 1 + j)) := by
      funext j
      have harg : fp + Nat.succ j = fp + 1 + j := by omega
      simp only [Function.comp_apply]
      rw [harg]
    rw [chunkScore, List.range_succ_eq_map]
    simp only [List.map_cons, List.sum_cons, List.map_map, Nat.add_zero]
    rw [ih (fp + 1), hfun]

theorem chunkScore_ge_page (env : Env) (n t fp j : Nat) (h : j < n) :
    pageScore t (env.pageState (fp + j)) ≤ chunkScore env n t fp := by
  induction n generalizing fp j with
  | zero => omega
  | succ m ih =>
    rw [chunkScore]
    cases j with
    | zero =>
      simp only [Nat.add_zero]
      exact Nat.le_add_right (pageScore t (env.pageState fp)) _
    | succ i =>
      have h2 : i < m := by omega
      have h3 := ih (fp + 1) i h2
      have heq : fp + 1 + i = fp + (i + 1) := by omega
      rw [heq] at h3
      omega

/-- C7: for every chunk with `threshold = pages_per_chunk / 2`, the cache
score is the sum over the chunk's pages of 1 per cache-resident clean page
and `threshold + 1` per cache-resident dirty page, the chunk is routed to
the write-back path iff `score > threshold`, and hence any chunk with a
dirty resident page always goes to write-back. -/
theorem chunk_score_routing (cfg : DmaTaskCfg) (env : Env)
    (karg : StromCmd__MemCpySsdToGpuWriteBack) (i_size chunk_id : Nat)
    (st : WbState) (n t fp : Nat)
    (hn : n = karg.chunk_sz >>> PAGE_CACHE_SHIFT)
    (ht : t = n / 2)
    (hfp : fp = chunkFpos karg chunk_id >>> PAGE_CACHE_SHIFT)
    (hfpos : chunkFpos karg chunk_id ≤ i_size) :
    chunkScore env n t fp =
      ((List.range n).map (fun j =>
        match env.pageState (fp + j) with
        | .absent => 0
        | .clean => 1
        | .dirty => t + 1)).sum ∧
    ((memcpy_chunk cfg env karg i_size chunk_id st).2.nr_ram2gpu =
        st.nr_ram2gpu + 1 ↔ chunkScore env n t fp > t) ∧
    ((memcpy_chunk cfg env karg i_size chunk_id st).2.nr_ssd2gpu =
        st.nr_ssd2gpu + 1 ↔ ¬ chunkScore env n t fp > t) ∧
    (∀ j, j < n → env.pageState (fp + j) = .dirty → chunkScore env n t fp > t) := by
  subst hn
  subst ht
  subst hfp
  refine ⟨chunkScore_eq_sum env _ _ _, ?_, ?_, ?_⟩
  · simp only [memcpy_chunk, if_neg (not_lt.mpr hfpos)]
    by_cases hs : chunkScore env (karg.chunk_sz >>> PAGE_CACHE_SHIFT)
        ((karg.chunk_sz >>> PAGE_CACHE_SHIFT) / 2)
        (chunkFpos karg chunk_id >>> PAGE_CACHE_SHIFT) >
        (karg.chunk_sz >>> PAGE_CACHE_SHIFT) / 2
    · simp [if_pos hs, hs]
    · simp only [if_neg hs]
      simp only [iff_false_intro hs, iff_false]
      omega
  · simp only [memcpy_chunk, if_neg (not_lt.mpr hfpos)]
    by_cases hs : chunkScore env (karg.chunk_sz >>> PAGE_CACHE_SHIFT)
        ((karg.chunk_sz >>> PAGE_CACHE_SHIFT) / 2)
        (chunkFpos karg chunk_id >>> PAGE_CACHE_SHIFT) >
        (karg.chunk_sz >>> PAGE_CACHE_SHIFT) / 2
    · simp only [if_pos hs]
      simp only [iff_true_intro hs, not_true, iff_false]
      omega
    · simp [if_neg hs, hs]
  · intro j hj hdirty
    have h1 := chunkScore_ge_page env (karg.chunk_sz >>> PAGE_CACHE_SHIFT)
      ((karg.chunk_sz >>> PAGE_CACHE_SHIFT) / 2)
      (chunkFpos karg chunk_id >>> PAGE_CACHE_SHIFT) j hj
    rw [hdirty] at h1
    simp only [pageScore] at h1
    omega

theorem chunk_score_routing_witness :
    (memcpy_chunk scenarioCfg mixEnv ⟨2, 32768, 0, 0⟩ 1048576 1
      (wbInit scenarioCfg ⟨2, 32768, 0, 0⟩ [0, 0])).2.nr_ram2gpu =
      (wbInit scenarioCfg ⟨2, 32768, 0, 0⟩ [0, 0]).nr_ram2gpu + 1 := by
  have h := chunk_score_routing scenarioCfg mixEnv ⟨2, 32768, 0, 0⟩ 1048576 1
    (wbInit scenarioCfg ⟨2, 32768, 0, 0⟩ [0, 0]) 8 4 8
    (by decide) (by decide) (by decide) (by decide)
  exact h.2.1.mpr (by decide)

/-- C8: a chunk's file position is `chunk_id * chunk_sz` when `relseg_sz
= 0` and `(chunk_id mod relseg_sz) * chunk_sz` when `relseg_sz > 0`, and
when this position lies beyond end-of-file the chunk -- and with it the
whole batch -- is rejected with -ERANGE, the state untouched. -/
theorem chunk_fpos_eof_check (cfg : DmaTaskCfg) (env : Env)
    (karg : StromCmd__MemCpySsdToGpuWriteBack) (i_size chunk_id : Nat)
    (st : WbState) :
    chunkFpos karg chunk_id =
      (if karg.relseg_sz = 0 then chunk_id * karg.chunk_sz
       else (chunk_id % karg.relseg_sz) * karg.chunk_sz) ∧
    (chunkFpos karg chunk_id > i_size →
      memcpy_chunk cfg env karg i_size chunk_id st = (-ERANGE, st) ∧
      ∀ rest, memcpy_chunks cfg env karg i_size (chunk_id :: rest) st =
        (-ERANGE, st)) := by
  refine ⟨rfl, fun hgt => ⟨?_, ?_⟩⟩
  · simp only [memcpy_chunk, if_pos hgt]
  · intro rest
    rw [memcpy_chunks_cons]
    simp only [memcpy_chunk, if_pos hgt]
    norm_num [ERANGE]

theorem chunk_fpos_eof_check_witness :
    memcpy_chunk scenarioCfg scenarioEnv ⟨1, 4096, 0, 0⟩ 4096 5
      (wbInit scenarioCfg ⟨1, 4096, 0, 0⟩ [0]) =
      (-ERANGE, wbInit scenarioCfg ⟨1, 4096, 0, 0⟩ [0]) := by
  have h := (chunk_fpos_eof_check scenarioCfg scenarioEnv ⟨1, 4096, 0, 0⟩ 4096 5
    (wbInit scenarioCfg ⟨1, 4096, 0, 0⟩ [0])).2 (by decide)
  exact h.1

/-- C5 counterexample: in the specified scenario (1 MiB mapping at 64 KiB
device pages, 5 cache-cold storage-contiguous 32 KiB chunks) the code
submits two physical transfers, not one: 5 * 32 KiB = 160 KiB exceeds the
128 KiB per-transfer limit `STROM_DMA_SSD2GPU_MAXLEN`, so the pending run
is flushed after 32 blocks. -/
theorem scenario_not_one_transfer :
    (memcpy_ssd2gpu_writeback scenarioCfg scenarioEnv scenarioKarg 1048576
      [0, 1, 2, 3, 4] [0, 0, 0, 0, 0]).2.sched.nr_dma_submit = 2 ∧
    ¬ (memcpy_ssd2gpu_writeback scenarioCfg scenarioEnv scenarioKarg 1048576
      [0, 1, 2, 3, 4] [0, 0, 0, 0, 0]).2.sched.nr_dma_submit = 1 := by
  decide

/-- C5 (amended): in that scenario processing succeeds and submits
exactly two physical transfers -- the first covering the 32 contiguous
blocks of chunks 1-4, the second the remaining 8 blocks of chunk 5 --
with direct count 5, write-back count 0 and 40 blocks in total. -/
theorem scenario_two_transfers :
    memcpy_ssd2gpu_writeback scenarioCfg scenarioEnv scenarioKarg 1048576
      [0, 1, 2, 3, 4] [0, 0, 0, 0, 0] =
    (0, { nr_ram2gpu := 0, nr_ssd2gpu := 5, dest_offset := 163840,
          sched := { run := ⟨131072, 32, 8⟩,
                     subs := [⟨0, 0, 32⟩, ⟨131072, 32, 8⟩],
                     nr_dma_submit := 2, nr_dma_blocks := 40 },
          ids_out := [0, 1, 2, 3, 4], dirIds := [0, 1, 2, 3, 4],
          wbCopies := [] }) := by
  decide

/-- C6 counterexample: with a single cache-cold chunk and a submission
oracle failing every physical transfer with -EIO, the only submission
attempt is the flush of the final pending run after the last chunk; it
fails, yet `memcpy_ssd2gpu_writeback` returns success instead of the
error. -/
theorem final_flush_error_dropped :
    (memcpy_ssd2gpu_writeback scenarioCfg c6Env ⟨1, 32768, 0, 0⟩ 1048576
      [9] [0]).1 = 0 ∧
    (memcpy_ssd2gpu_writeback scenarioCfg c6Env ⟨1, 32768, 0, 0⟩ 1048576
      [9] [0]).2.sched.subs = [⟨0, 72, 8⟩] ∧
    submit_ssd2gpu_memcpy scenarioCfg c6Env 0 ⟨0, 72, 8⟩ = -5 := by
  decide

/-- C6 (amended): every failure during per-chunk processing (block
resolution, destination bounds, transfer build or submission) aborts the
batch and is returned as the first error -- the chunk loop stops at the
first chunk reporting a non-zero result and returns exactly that result;
however, when every chunk succeeds, the submission of the final non-empty
pending run has its result discarded and the call returns success
regardless of that submission's outcome. -/
theorem batch_error_policy (cfg : DmaTaskCfg) (env : Env)
    (karg : StromCmd__MemCpySsdToGpuWriteBack) (i_size : Nat) :
    (∀ c rest st r st2, memcpy_chunk cfg env karg i_size c st = (r, st2) →
      r ≠ 0 → memcpy_chunks cfg env karg i_size (c :: rest) st = (r, st2)) ∧
    (∀ c rest st st2, memcpy_chunk cfg env karg i_size c st = (0, st2) →
      memcpy_chunks cfg env karg i_size (c :: rest) st =
        memcpy_chunks cfg env karg i_size rest st2) ∧
    (∀ ids_in ids_init,
      karg.chunk_sz &&& (PAGE_CACHE_SIZE - 1) = 0 →
      PAGE_CACHE_SIZE ≤ karg.chunk_sz →
      karg.chunk_sz ≤ STROM_DMA_SSD2GPU_MAXLEN →
      cfg.mgmem.map_offset + karg.offset + karg.nr_chunks * karg.chunk_sz ≤
        cfg.mgmem.map_length →
      (memcpy_chunks cfg env karg i_size ids_in (wbInit cfg karg ids_init)).1 = 0 →
      (memcpy_ssd2gpu_writeback cfg env karg i_size ids_in ids_init).1 = 0) := by
  refine ⟨?_, ?_, ?_⟩
  · intro c rest st r st2 h hr
    rw [memcpy_chunks_cons, h]
    simp [hr]
  · intro c rest st st2 h
    rw [memcpy_chunks_cons, h]
    simp
  · intro ids_in ids_init h1 h2 h3 h4 hloop
    have hsan : ¬ (karg.chunk_sz &&& (PAGE_CACHE_SIZE - 1) ≠ 0 ∨
        karg.chunk_sz < PAGE_CACHE_SIZE ∨
        karg.chunk_sz > STROM_DMA_SSD2GPU_MAXLEN) := by
      push_neg
      exact ⟨h1, h2, h3⟩
    have hrange : ¬ (cfg.mgmem.map_offset + karg.offset +
        karg.nr_chunks * karg.chunk_sz > cfg.mgmem.map_length) :=
      not_lt.mpr h4
    simp only [memcpy_ssd2gpu_writeback, if_neg hsan, if_neg hrange]
    rw [if_neg (not_ne_iff.mpr hloop)]
    split <;> rfl

theorem batch_error_policy_witness :
    (memcpy_ssd2gpu_writeback scenarioCfg c6Env ⟨1, 32768, 0, 0⟩ 1048576
      [9] [0]).1 = 0 := by
  exact (batch_error_policy scenarioCfg c6Env ⟨1, 32768, 0, 0⟩ 1048576).2.2
    [9] [0] (by decide) (by decide) (by decide) (by decide) (by decide)

theorem set_append_cons {α : Type} (l1 : List α) (x y : α) (l2 : List α) :
    (l1 ++ x :: l2).set l1.length y = l1 ++ y :: l2 := by
  induction l1 with
  | nil => rfl
  | cons a as ih =>
    simp only [List.cons_append, List.length_cons, List.set_cons_succ]
    rw [ih]

theorem memcpy_chunk_inv (cfg : DmaTaskCfg) (env : Env)
    (karg : StromCmd__MemCpySsdToGpuWriteBack) (i_size c : Nat)
    (st : WbState) (rem : Nat)
    (hres : (memcpy_chunk cfg env karg i_size c st).1 = 0)
    (hinv : WbInv karg st (rem + 1)) :
    WbInv karg (memcpy_chunk cfg env karg i_size c st).2 rem := by
  obtain ⟨h1, h2, h3, h4, mid, hmidlen, hids⟩ := hinv
  by_cases hfp : chunkFpos karg c > i_size
  · exfalso
    simp only [memcpy_chunk, if_pos hfp] at hres
    exact absurd hres (by decide)
  · simp only [memcpy_chunk, if_neg hfp]
    by_cases hs : chunkScore env (karg.chunk_sz >>> PAGE_CACHE_SHIFT)
        ((karg.chunk_sz >>> PAGE_CACHE_SHIFT) / 2)
        (chunkFpos karg c >>> PAGE_CACHE_SHIFT) >
        (karg.chunk_sz >>> PAGE_CACHE_SHIFT) / 2
    · -- write-back branch
      simp only [if_pos hs]
      have hne : mid ≠ [] := by
        intro hmid
        rw [hmid] at hmidlen
        exact absurd hmidlen.symm (by simp)
      have hmid0len : mid.dropLast.length = rem := by
        rw [List.length_dropLast, hmidlen]
        omega
      have hidx : karg.nr_chunks - (st.nr_ram2gpu + 1) =
          (st.dirIds ++ mid.dropLast).length := by
        simp only [List.length_append, hmid0len]
        omega
      have hdecomp : st.ids_out =
          (st.dirIds ++ mid.dropLast) ++ (mid.getLast hne) ::
            (st.wbCopies.map Prod.fst).reverse := by
        rw [hids]
        conv =>
          lhs
          rw [← List.dropLast_append_getLast hne]
        simp [List.append_assoc]
      refine ⟨h1, by simp [h2], by simp; omega, ?_, mid.dropLast, hmid0len, ?_⟩
      · intro k hk
        by_cases hkw : k < st.wbCopies.length
        · have hg : (st.wbCopies ++
              [(c, karg.chunk_sz * (karg.nr_chunks - (st.nr_ram2gpu + 1)))]).get
              ⟨k, hk⟩ = st.wbCopies.get ⟨k, hkw⟩ := by
            simp only [List.get_eq_getElem]
            exact List.getElem_append_left hkw
          rw [hg]
          exact h4 k hkw
        · have hklt : k < st.wbCopies.length + 1 := by
            simpa using hk
          have hkeq : k = st.wbCopies.length := by omega
          subst hkeq
          have hg : (st.wbCopies ++
              [(c, karg.chunk_sz * (karg.nr_chunks - (st.nr_ram2gpu + 1)))]).get
              ⟨st.wbCopies.length, hk⟩ =
              (c, karg.chunk_sz * (karg.nr_chunks - (st.nr_ram2gpu + 1))) := by
            simp only [List.get_eq_getElem]
            rw [List.getElem_append_right (Nat.le_refl _)]
            simp
          rw [hg]
          simp only
          rw [h2]
      · rw [hdecomp, hidx, set_append_cons]
        simp [List.append_assoc, List.map_append, List.reverse_append]
    · -- direct branch
      simp only [if_neg hs]
      cases mid with
      | nil => exact absurd hmidlen (by simp)
      | cons m0 mrest =>
        have hmrest : mrest.length = rem := by
          simpa using hmidlen
        refine ⟨by simp [h1], h2, by simp; omega, h4, mrest, hmrest, ?_⟩
        have hdecomp : st.ids_out =
            st.dirIds ++ m0 :: (mrest ++ (st.wbCopies.map Prod.fst).reverse) := by
          rw [hids]
          simp [List.append_assoc]
        rw [hdecomp, h1, set_append_cons]
        simp [List.append_assoc]

theorem memcpy_chunks_inv (cfg : DmaTaskCfg) (env : Env)
    (karg : StromCmd__MemCpySsdToGpuWriteBack) (i_size : Nat)
    (ids : List Nat) (st : WbState)
    (hres : (memcpy_chunks cfg env karg i_size ids st).1 = 0)
    (hinv : WbInv karg st ids.length) :
    WbInv karg (memcpy_chunks cfg env karg i_size ids st).2 0 := by
  induction ids generalizing st with
  | nil => simpa [memcpy_chunks] using hinv
  | cons c rest ih =>
    rw [memcpy_chunks_cons] at hres ⊢
    by_cases hc : (memcpy_chunk cfg env karg i_size c st).1 ≠ 0
    · rw [if_pos hc] at hres
      exact absurd hres hc
    · rw [if_neg hc] at hres ⊢
      push_neg at hc
      exact ih _ hres (memcpy_chunk_inv cfg env karg i_size c st rest.length hc hinv)

theorem writeback_final_inv (cfg : DmaTaskCfg) (env : Env)
    (karg : StromCmd__MemCpySsdToGpuWriteBack) (i_size : Nat)
    (ids_in ids_init : List Nat) (st' : WbState)
    (hin : ids_in.length = karg.nr_chunks)
    (hout : ids_init.length = karg.nr_chunks)
    (hsucc : memcpy_ssd2gpu_writeback cfg env karg i_size ids_in ids_init = (0, st')) :
    st'.nr_ssd2gpu = st'.dirIds.length ∧
    st'.nr_ram2gpu = st'.wbCopies.length ∧
    st'.dirIds.length + st'.wbCopies.length = karg.nr_chunks ∧
    (∀ k (hk : k < st'.wbCopies.length),
      (st'.wbCopies.get ⟨k, hk⟩).2 = karg.chunk_sz * (karg.nr_chunks - (k + 1))) ∧
    st'.ids_out = st'.dirIds ++ (st'.wbCopies.map Prod.fst).reverse := by
  have hinit : WbInv karg (wbInit cfg karg ids_init) ids_in.length := by
    refine ⟨rfl, rfl, by simp [wbInit]; omega, ?_, ids_init, hout.trans hin.symm, ?_⟩
    · intro k hk
      exact absurd hk (by simp [wbInit])
    · simp [wbInit]
  simp only [memcpy_ssd2gpu_writeback] at hsucc
  split at hsucc
  · exfalso
    have h0 : (-EINVAL : Int) = 0 := congrArg Prod.fst hsucc
    norm_num [EINVAL] at h0
  · split at hsucc
    · exfalso
      have h0 : (-ERANGE : Int) = 0 := congrArg Prod.fst hsucc
      norm_num [ERANGE] at h0
    · split at hsucc
      · next hg =>
        exfalso
        exact hg (congrArg Prod.fst hsucc)
      · next hg =>
        push_neg at hg
        have hloopinv := memcpy_chunks_inv cfg env karg i_size ids_in
          (wbInit cfg karg ids_init) hg hinit
        obtain ⟨g1, g2, g3, g4, mid, hmidlen, gids⟩ := hloopinv
        have hmid : mid = [] := List.length_eq_zero.mp hmidlen
        subst hmid
        have gids2 : (memcpy_chunks cfg env karg i_size ids_in
              (wbInit cfg karg ids_init)).2.ids_out =
            (memcpy_chunks cfg env karg i_size ids_in (wbInit cfg karg ids_init)).2.dirIds ++
              ((memcpy_chunks cfg env karg i_size ids_in
                (wbInit cfg karg ids_init)).2.wbCopies.map Prod.fst).reverse := by
          simpa using gids
        split at hsucc
        · rw [Prod.mk.injEq] at hsucc
          obtain ⟨-, h5⟩ := hsucc
          subst h5
          refine ⟨g1, g2, ?_, g4, gids2⟩
          show (memcpy_chunks cfg env karg i_size ids_in
              (wbInit cfg karg ids_init)).2.dirIds.length +
            (memcpy_chunks cfg env karg i_size ids_in
              (wbInit cfg karg ids_init)).2.wbCopies.length = karg.nr_chunks
          omega
        · rw [Prod.mk.injEq] at hsucc
          obtain ⟨-, h5⟩ := hsucc
          subst h5
          exact ⟨g1, g2, by omega, g4, gids2⟩

/-- C9: on successful completion the returned chunk-id array holds the
direct-path chunk ids in processing order in positions `0 ..
nr_ssd2gpu - 1` and the write-back chunk ids in the tail positions,
filled from the back (reverse processing order), and `nr_ssd2gpu +
nr_ram2gpu = nr_chunks`. -/
theorem writeback_output_layout (cfg : DmaTaskCfg) (env : Env)
    (karg : StromCmd__MemCpySsdToGpuWriteBack) (i_size : Nat)
    (chunk_ids_in ids_init : List Nat) (st' : WbState)
    (hin : chunk_ids_in.length = karg.nr_chunks)
    (hout : ids_init.length = karg.nr_chunks)
    (hsucc : memcpy_ssd2gpu_writeback cfg env karg i_size chunk_ids_in ids_init =
      (0, st')) :
    st'.nr_ssd2gpu = st'.dirIds.length ∧
    st'.nr_ram2gpu = st'.wbCopies.length ∧
    st'.nr_ssd2gpu + st'.nr_ram2gpu = karg.nr_chunks ∧
    st'.ids_out = st'.dirIds ++ (st'.wbCopies.map Prod.fst).reverse := by
  obtain ⟨g1, g2, g3, g4, g5⟩ :=
    writeback_final_inv cfg env karg i_size chunk_ids_in ids_init st' hin hout hsucc
  exact ⟨g1, g2, by omega, g5⟩

theorem writeback_output_layout_witness :
    ([0, 1] : List Nat) =
      [0] ++ (([((1 : Nat), (32768 : Nat))].map Prod.fst).reverse) := by
  have h := writeback_output_layout scenarioCfg mixEnv ⟨2, 32768, 0, 0⟩ 1048576
    [0, 1] [0, 0]
    ⟨1, 1, 32768, ⟨⟨0, 0, 8⟩, [⟨0, 0, 8⟩], 1, 8⟩, [0, 1], [0], [(1, 32768)]⟩
    (by decide) (by decide) (by decide)
  exact h.2.2.2

/-- C10: the caller-supplied write-back buffer is filled from its end
backwards: on success the k-th write-back chunk (0-indexed) has its data
copied at buffer offset `chunk_sz * (nr_chunks - (k + 1))`, and its id
sits at the mirroring position `nr_chunks - (k + 1)` of the returned
chunk-id array. -/
theorem writeback_buffer_mirror (cfg : DmaTaskCfg) (env : Env)
    (karg : StromCmd__MemCpySsdToGpuWriteBack) (i_size : Nat)
    (chunk_ids_in ids_init : List Nat) (st' : WbState)
    (hin : chunk_ids_in.length = karg.nr_chunks)
    (hout : ids_init.length = karg.nr_chunks)
    (hsucc : memcpy_ssd2gpu_writeback cfg env karg i_size chunk_ids_in ids_init =
      (0, st')) :
    ∀ k (hk : k < st'.wbCopies.length),
      (st'.wbCopies.get ⟨k, hk⟩).2 = karg.chunk_sz * (karg.nr_chunks - (k + 1)) ∧
      st'.ids_out[karg.nr_chunks - (k + 1)]? =
        some (st'.wbCopies.get ⟨k, hk⟩).1 := by
  obtain ⟨g1, g2, g3, g4, g5⟩ :=
    writeback_final_inv cfg env karg i_size chunk_ids_in ids_init st' hin hout hsucc
  intro k hk
  refine ⟨g4 k hk, ?_⟩
  have hd : st'.dirIds.length ≤ karg.nr_chunks - (k + 1) := by omega
  have hrevlen : karg.nr_chunks - (k + 1) - st'.dirIds.length <
      (st'.wbCopies.map Prod.fst).length := by
    simp only [List.length_map]
    omega
  rw [g5, List.getElem?_append_right hd,
    List.getElem?_reverse (by simpa using hrevlen)]
  have hidx : (st'.wbCopies.map Prod.fst).length - 1 -
      (karg.nr_chunks - (k + 1) - st'.dirIds.length) = k := by
    simp only [List.length_map]
    omega
  rw [hidx, List.getElem?_map, List.getElem?_eq_getElem hk]
  simp

theorem writeback_buffer_mirror_witness :
    ((([((1 : Nat), (32768 : Nat))]) : List (Nat × Nat)).get ⟨0, by decide⟩).2 =
      32768 * (2 - (0 + 1)) := by
  have h := writeback_buffer_mirror scenarioCfg mixEnv ⟨2, 32768, 0, 0⟩ 1048576
    [0, 1] [0, 0]
    ⟨1, 1, 32768, ⟨⟨0, 0, 8⟩, [⟨0, 0, 8⟩], 1, 8⟩, [0, 1], [0], [(1, 32768)]⟩
    (by decide) (by decide) (by decide) 0 (by decide)
  exact h.1

end NvmeStrom
